import Mathlib

/-!
Shallow embedding of the game-server core of `apps/game-server/src/index.ts`
(session/world engine of a multi-user text adventure): inventory bookkeeping,
vendor trade, combat resolution, NPC spawn policy, exit materialization and
the inbound-command parser.  Machine numbers are modelled as `Int`
(JavaScript arithmetic on the integral values the server uses), random draws
of `Math.random()` as rationals in `[0, 1)`, and the two awaited generator
collaborators as explicit `Except`-valued inputs.
-/

namespace Caverna

/-- `toLowerCase()` on the character data (kernel-computable counterpart of
`String.toLower`). -/
def toLowerStr (s : String) : String :=
  String.mk (s.data.map Char.toLower)

/-- The whitespace test of `trim()`. -/
def isWsChar (c : Char) : Bool :=
  c == ' ' || c == '\t' || c == '\n' || c == '\r'

/-- `trim()` on the character data. -/
def trimStr (s : String) : String :=
  String.mk (((s.data.dropWhile isWsChar).reverse.dropWhile isWsChar).reverse)

/-- `NpcClass` of `packages/shared/src/types.ts`. -/
inductive NpcClass
  | normie
  | vendor
deriving DecidableEq, Repr

/-- The item categories of `VendorStockItem.type` (`"weapon" | "armor" | "item"`). -/
inductive ItemType
  | weapon
  | armor
  | item
deriving DecidableEq, Repr

/-- `VendorStockItem.quantity : number | "unlimited"`. -/
inductive StockQuantity
  | unlimited
  | count (n : Int)
deriving DecidableEq, Repr

/-- `VendorStockItem` of the shared types (optional fields as `Option`). -/
structure VendorStockItem where
  name : String
  type : ItemType
  quantity : StockQuantity
  attackRating : Option Int
  cost : Option Int
  healAmount : Option Int
  description : Option String
deriving DecidableEq, Repr

/-- `Inventory` of the shared types: weapon slot, armor slot, 20 item slots. -/
structure Inventory where
  weapon : Option String
  armor : Option String
  items : List (Option String)
deriving DecidableEq, Repr

/-- `PlayerState` (the fields the engine mutates; the real-time timestamps
`bornAt`/`lastActiveAt` are wall-clock data and are not modelled). -/
structure PlayerState where
  id : String
  name : String
  description : Option String
  age : Int
  creds : Int
  health : Int
  attackRating : Int
  isNpc : Bool
  npcClass : Option NpcClass
  vendorStock : Option (List VendorStockItem)
  inventory : Inventory
  roomId : String
deriving DecidableEq, Repr

/-- `ExitRef` of the shared types. -/
structure ExitRef where
  direction : String
  targetRoomId : Option String
deriving DecidableEq, Repr

/-- `Room` of the shared types (the `createdAt` wall-clock timestamp is not
modelled). -/
structure Room where
  id : String
  name : String
  description : String
  regionId : Option String
  isHub : Bool
  exits : List ExitRef
deriving DecidableEq, Repr

/-- `ServerEvent` discriminants (payloads beyond the message reduced to the
data the claims are about). -/
inductive ServerEvent
  | welcome
  | roomDescription (roomId : String)
  | chat (fromPlayerId fromName roomId message : String)
  | system (message : String)
  | error (message : String)
deriving DecidableEq, Repr

/-- One outbound send: `sendEvent` (unicast) or `broadcastToRoom`. -/
inductive Emission
  | toPlayer (playerId : String) (event : ServerEvent)
  | toRoom (roomId : String) (event : ServerEvent)
deriving DecidableEq, Repr

/-- `BROKEN_LEDGER` vendor stock constant. -/
def BROKEN_LEDGER : VendorStockItem :=
  { name := "Broken Ledger", type := ItemType.weapon, quantity := StockQuantity.unlimited,
    attackRating := some 20, cost := some 20, healAmount := none,
    description := some "Ledger broken in half with sharp edges. Still holds the seed phrase." }

/-- `COFFEE` vendor stock constant. -/
def COFFEE : VendorStockItem :=
  { name := "Coffee", type := ItemType.item, quantity := StockQuantity.unlimited,
    attackRating := none, cost := some 2, healAmount := some 10,
    description := some "A hot brew that restores 10 health when sipped." }

/-- `MONSTER` vendor stock constant. -/
def MONSTER : VendorStockItem :=
  { name := "Monster", type := ItemType.item, quantity := StockQuantity.unlimited,
    attackRating := none, cost := some 1, healAmount := some 4,
    description := some "Sugary fizz that restores 4 health." }

/-- `MATE` vendor stock constant. -/
def MATE : VendorStockItem :=
  { name := "Mate", type := ItemType.item, quantity := StockQuantity.unlimited,
    attackRating := none, cost := some 2, healAmount := some 10,
    description := some "Herbal energy that restores 10 health." }

/-- `ItemDefinition`: the static catalog entry shape. -/
structure ItemDefinition where
  type : ItemType
  attackRating : Option Int
  healAmount : Option Int
deriving DecidableEq, Repr

/-- `ITEM_DEFINITIONS`: the static catalog, keyed by lower-cased item name. -/
def ITEM_DEFINITIONS : List (String × ItemDefinition) :=
  [("broken ledger", { type := ItemType.weapon, attackRating := some 20, healAmount := none }),
   ("coffee", { type := ItemType.item, attackRating := none, healAmount := some 10 }),
   ("monster", { type := ItemType.item, attackRating := none, healAmount := some 4 }),
   ("mate", { type := ItemType.item, attackRating := none, healAmount := some 10 })]

/-- `identifyItem(itemName)`: catalog lookup by lower-cased name. -/
def identifyItem (itemName : String) : Option ItemDefinition :=
  (ITEM_DEFINITIONS.find? (fun p => p.1 == toLowerStr itemName)).map Prod.snd

/-- `FIST_ATTACK_RATING`. -/
def FIST_ATTACK_RATING : Int := 10

/-- `PLAYER_MAX_HEALTH`. -/
def PLAYER_MAX_HEALTH : Int := 100

/-- `createEmptyInventory()`: weapon `"fist"`, no armor, 20 empty slots. -/
def createEmptyInventory : Inventory :=
  { weapon := some "fist", armor := none, items := List.replicate 20 none }

/-- The slot search of `addItemToInventory`: put the item in the first `null`
slot (`findIndex(item => item === null)` followed by the write), `none` when
no slot is free. -/
def addItemFirstFree (itemName : String) : List (Option String) → Option (List (Option String))
  | [] => none
  | none :: rest => some (some itemName :: rest)
  | some x :: rest => (addItemFirstFree itemName rest).map (fun r => some x :: r)

/-- `addItemToInventory(inventory, itemName)`: `some` of the updated inventory
on success, `none` when the pack is full (the source returns a boolean and
mutates in place). -/
def addItemToInventory (inv : Inventory) (itemName : String) : Option Inventory :=
  (addItemFirstFree itemName inv.items).map (fun items' => { inv with items := items' })

/-- The slot predicate of `removeItemFromInventory`:
`item?.toLowerCase() === itemName.toLowerCase()`. -/
def slotMatches (itemName : String) : Option String → Bool
  | none => false
  | some n => toLowerStr n == toLowerStr itemName

/-- The scan of `removeItemFromInventory`: clear the first case-insensitive
match and return the stored name together with the updated slots. -/
def removeItemFirstMatch (itemName : String) :
    List (Option String) → Option (String × List (Option String))
  | [] => none
  | s :: rest =>
    if slotMatches itemName s then
      match s with
      | some found => some (found, none :: rest)
      | none => none
    else
      (removeItemFirstMatch itemName rest).map (fun r => (r.1, s :: r.2))

/-- `removeItemFromInventory(inventory, itemName)`: the removed name and the
updated inventory, or `none` when the item is absent. -/
def removeItemFromInventory (inv : Inventory) (itemName : String) :
    Option (String × Inventory) :=
  (removeItemFirstMatch itemName inv.items).map
    (fun r => (r.1, { inv with items := r.2 }))

/-- `listNpcsInRoom`/`findVendorInRoom`: the NPCs of the current room are
passed as a list; a vendor is found by class and case-insensitive name. -/
def findVendorInRoom (npcsInRoom : List PlayerState) (name : String) : Option PlayerState :=
  npcsInRoom.find? (fun npc =>
    npc.npcClass == some NpcClass.vendor && toLowerStr npc.name == toLowerStr name)

/-- `findNormieInRoom(roomId, name)`: class `normie`, case-insensitive name. -/
def findNormieInRoom (npcsInRoom : List PlayerState) (name : String) : Option PlayerState :=
  npcsInRoom.find? (fun npc =>
    npc.npcClass == some NpcClass.normie && toLowerStr npc.name == toLowerStr name)

/-- In-place mutation of an NPC record held by the `npcs` map, seen from the
room list: the entry with the mutated id now shows the updated record. -/
def replaceById (npcsInRoom : List PlayerState) (updated : PlayerState) : List PlayerState :=
  npcsInRoom.map (fun n => if n.id == updated.id then updated else n)

/-- One stock line of `formatVendorStock`. -/
def formatStockLine (item : VendorStockItem) : String :=
  let qty := match item.quantity with
    | StockQuantity.unlimited => "unlimited"
    | StockQuantity.count n => "x" ++ toString n
  let attack := match item.attackRating with
    | some a => ", atk " ++ toString a
    | none => ""
  let heal := match item.healAmount with
    | some h => ", heals " ++ toString h
    | none => ""
  let cost := match item.cost with
    | some c => toString c ++ " creds"
    | none => "free"
  let descr := match item.description with
    | some d => " — " ++ d
    | none => ""
  "- " ++ item.name ++ " (" ++ qty ++ attack ++ heal ++ ") for " ++ cost ++ descr

/-- `formatVendorStock(stock)`. -/
def formatVendorStock (stock : List VendorStockItem) : String :=
  if stock.length == 0 then "(Chet shrugs. Nothing for sale right now.)"
  else
    String.intercalate "\n"
      ("Chet shows you his wares:" :: stock.map formatStockLine ++
        ["(Try: talk chet buy <item name> or talk chet leave)"])

/-- `talk` actions (`"list" | "buy" | "leave"`). -/
inductive TalkAction
  | list
  | buy
  | leave
deriving DecidableEq, Repr

/-- `handleTalk(player, room, target, action, itemName)`: vendor trade.
Returns the updated buyer, the updated NPC list of the room, and the sent
events.  The two-step rollback of a buy that finds no free slot is embedded
exactly as written: debit and credit first, then refund and re-debit when
`addItemToInventory` fails. -/
def handleTalk (player : PlayerState) (npcsInRoom : List PlayerState) (target : String)
    (action : Option TalkAction) (itemName : Option String) :
    PlayerState × List PlayerState × List Emission :=
  match findVendorInRoom npcsInRoom target with
  | none =>
    (player, npcsInRoom,
      [Emission.toPlayer player.id (ServerEvent.error
        ("You don't see " ++ target ++ " here to talk to. Only Chet seems interested in conversation."))])
  | some vendor =>
    if toLowerStr vendor.name != "chet" then
      (player, npcsInRoom,
        [Emission.toPlayer player.id (ServerEvent.error
          ("You don't see " ++ target ++ " here to talk to. Only Chet seems interested in conversation."))])
    else
      let stock := vendor.vendorStock.getD []
      match action with
      | none =>
        (player, npcsInRoom,
          [Emission.toPlayer player.id (ServerEvent.system (formatVendorStock stock))])
      | some TalkAction.list =>
        (player, npcsInRoom,
          [Emission.toPlayer player.id (ServerEvent.system (formatVendorStock stock))])
      | some TalkAction.leave =>
        (player, npcsInRoom,
          [Emission.toPlayer player.id (ServerEvent.system "You nod to Chet and step away.")])
      | some TalkAction.buy =>
        match itemName with
        | none =>
          (player, npcsInRoom,
            [Emission.toPlayer player.id (ServerEvent.error
              "Specify what to buy. Example: talk chet buy Broken Ledger")])
        | some iname =>
          match stock.find? (fun it => toLowerStr it.name == toLowerStr iname) with
          | none =>
            (player, npcsInRoom,
              [Emission.toPlayer player.id (ServerEvent.error
                ("Chet doesn't carry " ++ iname ++ ". Try talk chet list."))])
          | some desired =>
            let cost := desired.cost.getD 0
            if player.creds < cost then
              (player, npcsInRoom,
                [Emission.toPlayer player.id (ServerEvent.error
                  ("You need " ++ toString cost ++ " creds to buy " ++ desired.name ++
                    ", but you only have " ++ toString player.creds ++ "."))])
            else
              let player1 : PlayerState := { player with creds := player.creds - cost }
              let vendor1 : PlayerState := { vendor with creds := vendor.creds + cost }
              match addItemToInventory player1.inventory desired.name with
              | none =>
                let player2 : PlayerState := { player1 with creds := player1.creds + cost }
                let vendor2 : PlayerState := { vendor1 with creds := vendor1.creds - cost }
                (player2, replaceById npcsInRoom vendor2,
                  [Emission.toPlayer player.id (ServerEvent.error
                    "Your pack is full. Drop something before buying that.")])
              | some inv2 =>
                ({ player1 with inventory := inv2 }, replaceById npcsInRoom vendor1,
                  [Emission.toPlayer player.id (ServerEvent.system
                    ("You buy " ++ desired.name ++ " from Chet for " ++ toString cost ++
                      " creds and stash it in your pack."))])

/-- The first target-resolution predicate of `handleAttack`: a non-NPC actor
whose name matches case-insensitively. -/
def friendlyTargetPred (target : String) (a : PlayerState) : Bool :=
  !a.isNpc && toLowerStr a.name == toLowerStr target

/-- `handleAttack(player, room, target)`: combat resolution.  Inputs are the
other players of the room (`listOtherActorsInRoom` minus the NPCs) and the
NPCs of the room; returns the updated attacker, the updated NPC list, and
the sent events. -/
def handleAttack (player : PlayerState) (otherPlayers npcsInRoom : List PlayerState)
    (target : String) : PlayerState × List PlayerState × List Emission :=
  match (otherPlayers ++ npcsInRoom).find? (friendlyTargetPred target) with
  | some otherPlayer =>
    (player, npcsInRoom,
      [Emission.toPlayer player.id (ServerEvent.system
        ("You cannot attack the friendly " ++ otherPlayer.name ++ "."))])
  | none =>
    match findNormieInRoom npcsInRoom target with
    | none =>
      (player, npcsInRoom,
        [Emission.toPlayer player.id (ServerEvent.error
          ("There is no Normie named " ++ target ++ " here."))])
    | some npc =>
      let damage := max 0 player.attackRating
      let attackerWeapon := player.inventory.weapon.getD "their fist"
      let npcHealth := max 0 (npc.health - damage)
      let atkMsg := Emission.toRoom player.roomId (ServerEvent.system
        (player.name ++ " attacks " ++ npc.name ++ " with " ++ attackerWeapon ++
          " for " ++ toString damage ++ " damage. (" ++ toString npcHealth ++ " hp left)"))
      if npcHealth ≤ 0 then
        let loot := npc.creds
        let npcs' := npcsInRoom.filter (fun n => n.id != npc.id)
        let defeatMsg := Emission.toRoom player.roomId (ServerEvent.system
          (npc.name ++ " is defeated and slinks away."))
        if 0 < loot then
          let player' : PlayerState := { player with creds := player.creds + loot }
          (player', npcs',
            [atkMsg, defeatMsg,
              Emission.toPlayer player.id (ServerEvent.system
                ("You collect " ++ toString loot ++ " creds from " ++ npc.name ++
                  ". You now have " ++ toString player'.creds ++ "."))])
        else
          (player, npcs', [atkMsg, defeatMsg])
      else
        let npc' : PlayerState := { npc with health := npcHealth }
        let retaliation := max 0 npc.attackRating
        let npcWeapon := npc.inventory.weapon.getD "their fist"
        let playerHealth := max 0 (player.health - retaliation)
        let player' : PlayerState := { player with health := playerHealth }
        let retMsg := Emission.toRoom player.roomId (ServerEvent.system
          (npc.name ++ " strikes back with " ++ npcWeapon ++ " for " ++
            toString retaliation ++ " damage! " ++ player.name ++ " has " ++
            toString playerHealth ++ " hp."))
        if playerHealth ≤ 0 then
          (player', replaceById npcsInRoom npc',
            [atkMsg, retMsg,
              Emission.toPlayer player.id (ServerEvent.system
                "You are overwhelmed and need a moment to recover.")])
        else
          (player', replaceById npcsInRoom npc', [atkMsg, retMsg])

/-- Output of the NPC-profile collaborator `generateNormieProfile(health)`. -/
structure NormieProfile where
  name : String
  description : String
deriving DecidableEq, Repr

/-- `MAX_NORMIES_PER_ROOM`. -/
def MAX_NORMIES_PER_ROOM : Nat := 3

/-- `NORMIE_ATTACK_RATING`. -/
def NORMIE_ATTACK_RATING : Int := 10

/-- How many NPCs of class `normie` are in a room (the cap check of the
source actually counts the whole `listNpcsInRoom` result). -/
def normieCount (npcsInRoom : List PlayerState) : Nat :=
  npcsInRoom.countP (fun n => n.npcClass == some NpcClass.normie)

/-- `maybeSpawnNormie(room)`: spawn policy.  `spawnDraw`, `healthDraw`,
`credsDraw` and `ageDraw` are the four successive `Math.random()` values
(rationals in `[0, 1)`); the awaited `generateNormieProfile` call is the
`profileOutcome` input, whose failure the source swallows in the `catch`.
Returns the inserted NPC (if any) and the sent events. -/
def maybeSpawnNormie (npcsInRoom : List PlayerState) (roomId : String)
    (spawnDraw healthDraw credsDraw ageDraw : ℚ)
    (profileOutcome : Except Unit NormieProfile) (freshId : String) :
    Option PlayerState × List Emission :=
  if MAX_NORMIES_PER_ROOM ≤ npcsInRoom.length then (none, [])
  else if (35 : ℚ) / 100 < spawnDraw then (none, [])
  else
    let health : Int := Int.floor (healthDraw * ((100 : ℚ) - 15 + 1) + 15)
    let creds : Int := Int.floor (credsDraw * 51)
    let age : Int := Int.floor (ageDraw * 63) + 18
    match profileOutcome with
    | Except.error _ => (none, [])
    | Except.ok profile =>
      let npc : PlayerState :=
        { id := "npc-" ++ freshId, name := profile.name,
          description := some profile.description, age := age, creds := creds,
          health := health, attackRating := NORMIE_ATTACK_RATING, isNpc := true,
          npcClass := some NpcClass.normie, vendorStock := none,
          inventory := createEmptyInventory, roomId := roomId }
      (some npc,
        [Emission.toRoom roomId (ServerEvent.system
          ("A Normie named " ++ npc.name ++ " appears. " ++ profile.description))])

/-- Outcome discriminant of the `equip` branch of `handleCommand`; the
`consumed` variant carries the `healedFor` computed by the source. -/
inductive EquipOutcome
  | emptyName
  | notInInventory
  | unknownItem (found : String)
  | equippedWeapon (found : String)
  | noSpaceWeapon (found : String)
  | equippedArmor (found : String)
  | noSpaceArmor (found : String)
  | consumed (found : String) (healedFor : Int)
deriving DecidableEq, Repr

/-- Tail of the weapon-equip branch: install the drawn item in the weapon
slot and take the catalog attack rating (`?? FIST_ATTACK_RATING`). -/
def finishEquipWeapon (player : PlayerState) (items2 : List (Option String))
    (foundItem : String) (definition : ItemDefinition) :
    PlayerState × EquipOutcome × List Emission :=
  ({ player with
      inventory := { player.inventory with weapon := some foundItem, items := items2 },
      attackRating := definition.attackRating.getD FIST_ATTACK_RATING },
    EquipOutcome.equippedWeapon foundItem,
    [Emission.toPlayer player.id (ServerEvent.system
      ("You equip " ++ foundItem ++ " as your weapon."))])

/-- Tail of the armor-equip branch. -/
def finishEquipArmor (player : PlayerState) (items2 : List (Option String))
    (foundItem : String) : PlayerState × EquipOutcome × List Emission :=
  ({ player with
      inventory := { player.inventory with armor := some foundItem, items := items2 } },
    EquipOutcome.equippedArmor foundItem,
    [Emission.toPlayer player.id (ServerEvent.system
      ("You equip " ++ foundItem ++ " as your armor."))])

/-- The `equip` branch of `handleCommand` (lines 616-721): draw the item from
the slots, identify it, stow the displaced weapon/armor (rolling the drawn
item back when no slot is free), or consume a healing item with the health
clamped at `PLAYER_MAX_HEALTH`. -/
def handleEquip (player : PlayerState) (rawItem : String) :
    PlayerState × EquipOutcome × List Emission :=
  let itemName := trimStr rawItem
  if itemName == "" then
    (player, EquipOutcome.emptyName,
      [Emission.toPlayer player.id (ServerEvent.error "Equip what? Try: equip <item name>")])
  else
    match removeItemFirstMatch itemName player.inventory.items with
    | none =>
      (player, EquipOutcome.notInInventory,
        [Emission.toPlayer player.id (ServerEvent.error
          (itemName ++ " isn't in your inventory."))])
    | some (foundItem, items1) =>
      match identifyItem foundItem with
      | none =>
        ({ player with inventory :=
            { player.inventory with items := (addItemFirstFree foundItem items1).getD items1 } },
          EquipOutcome.unknownItem foundItem,
          [Emission.toPlayer player.id (ServerEvent.error
            ("You don't know how to equip " ++ foundItem ++ "."))])
      | some definition =>
        match definition.type with
        | ItemType.weapon =>
          match player.inventory.weapon with
          | some currentWeapon =>
            if toLowerStr currentWeapon == "fist" then
              finishEquipWeapon player items1 foundItem definition
            else
              match addItemFirstFree currentWeapon items1 with
              | none =>
                ({ player with inventory :=
                    { player.inventory with items := (addItemFirstFree foundItem items1).getD items1 } },
                  EquipOutcome.noSpaceWeapon foundItem,
                  [Emission.toPlayer player.id (ServerEvent.error
                    "No space to stow your current weapon.")])
              | some items2 => finishEquipWeapon player items2 foundItem definition
          | none => finishEquipWeapon player items1 foundItem definition
        | ItemType.armor =>
          match player.inventory.armor with
          | some currentArmor =>
            match addItemFirstFree currentArmor items1 with
            | none =>
              ({ player with inventory :=
                  { player.inventory with items := (addItemFirstFree foundItem items1).getD items1 } },
                EquipOutcome.noSpaceArmor foundItem,
                [Emission.toPlayer player.id (ServerEvent.error
                  "No space to stow your current armor.")])
            | some items2 => finishEquipArmor player items2 foundItem
          | none => finishEquipArmor player items1 foundItem
        | ItemType.item =>
          let healAmount := max 0 (definition.healAmount.getD 0)
          let previousHealth := player.health
          let newHealth := min PLAYER_MAX_HEALTH (player.health + healAmount)
          let healedFor := newHealth - previousHealth
          ({ player with
              inventory := { player.inventory with items := items1 },
              health := newHealth },
            EquipOutcome.consumed foundItem healedFor,
            [Emission.toPlayer player.id (ServerEvent.system
              (if 0 < healedFor then
                "You consume " ++ foundItem ++ " and recover " ++ toString healedFor ++
                  " health. (" ++ toString newHealth ++ " hp now)"
              else
                "You consume " ++ foundItem ++ " but feel no different. (" ++
                  toString newHealth ++ " hp)"))])

/-- The `unequip` slot argument (`"weapon" | "armor"`, default weapon). -/
inductive UnequipSlot
  | weapon
  | armor
deriving DecidableEq, Repr

/-- Shared tail of the weapon-unequip branch when nothing but fists are
held: reset the sentinel and the base attack rating. -/
def unequipToFists (player : PlayerState) : PlayerState × List Emission :=
  ({ player with
      inventory := { player.inventory with weapon := some "fist" },
      attackRating := FIST_ATTACK_RATING },
    [Emission.toPlayer player.id (ServerEvent.system
      "You ball up your fists, ready to swing.")])

/-- The `unequip` branch of `handleCommand` (lines 723-789). -/
def handleUnequip (player : PlayerState) (slotArg : Option UnequipSlot) :
    PlayerState × List Emission :=
  match slotArg.getD UnequipSlot.weapon with
  | UnequipSlot.weapon =>
    match player.inventory.weapon with
    | none => unequipToFists player
    | some equipped =>
      if toLowerStr equipped == "fist" then unequipToFists player
      else
        match addItemFirstFree equipped player.inventory.items with
        | none =>
          (player,
            [Emission.toPlayer player.id (ServerEvent.error
              "No space in your pack to unequip that weapon.")])
        | some items2 =>
          ({ player with
              inventory := { player.inventory with weapon := some "fist", items := items2 },
              attackRating := FIST_ATTACK_RATING },
            [Emission.toPlayer player.id (ServerEvent.system
              ("You stow " ++ equipped ++ " and rely on your fists."))])
  | UnequipSlot.armor =>
    match player.inventory.armor with
    | none =>
      (player,
        [Emission.toPlayer player.id (ServerEvent.system "You aren't wearing any armor.")])
    | some equipped =>
      match addItemFirstFree equipped player.inventory.items with
      | none =>
        (player,
          [Emission.toPlayer player.id (ServerEvent.error
            "No space in your pack to unequip that armor.")])
      | some items2 =>
        ({ player with
            inventory := { player.inventory with armor := none, items := items2 } },
          [Emission.toPlayer player.id (ServerEvent.system
            ("You remove " ++ equipped ++ " and pack it away."))])

/-- One candidate room returned by the content generator
(`WorldBuilderRoomOutput`). -/
structure WorldBuilderRoomOutput where
  name : String
  description : String
  isHub : Option Bool
  exits : List ExitRef
deriving DecidableEq, Repr

/-- `WorldBuilderResponse` of the content generator. -/
structure WorldBuilderResponse where
  newRooms : List WorldBuilderRoomOutput
deriving DecidableEq, Repr

/-- `rooms.get(id)` over the room table (a `Map` modelled as an association
list). -/
def roomsGet (rooms : List (String × Room)) (id : String) : Option Room :=
  (rooms.find? (fun p => p.1 == id)).map Prod.snd

/-- `rooms.set(id, r)`: replace the entry when the key exists, append
otherwise. -/
def roomsSet (rooms : List (String × Room)) (id : String) (r : Room) :
    List (String × Room) :=
  if (rooms.find? (fun p => p.1 == id)).isSome then
    rooms.map (fun p => if p.1 == id then (id, r) else p)
  else rooms ++ [(id, r)]

/-- `room.exits.find(e => e.direction === direction)`. -/
def findExit (exits : List ExitRef) (direction : String) : Option ExitRef :=
  exits.find? (fun e => e.direction == direction)

/-- The in-place write `exit.targetRoomId = newRoomId` on the exit object
returned by `find`: set the target of the first direction match. -/
def setExitTarget (exits : List ExitRef) (direction t : String) : List ExitRef :=
  match exits with
  | [] => []
  | e :: rest =>
    if e.direction == direction then { e with targetRoomId := some t } :: rest
    else e :: setExitTarget rest direction t

/-- Result discriminant of the `move` branch. -/
inductive MoveResult
  | moved (targetRoomId : String)
  | errorEvent (message : String)
  | noRoom
deriving DecidableEq, Repr

/-- State and result of one `move` resolution: the room table afterwards,
the outcome, and whether the content generator was invoked. -/
structure MoveOutcome where
  rooms : List (String × Room)
  result : MoveResult
  generatorCalled : Bool
deriving DecidableEq, Repr

/-- The tail of the `move` branch after the exit target is known: the falsy
check `!exit.targetRoomId` (blocked path), then the `rooms.get` lookup
(reality glitch when absent), then the relocation. -/
def finishMove (rooms : List (String × Room)) (target : Option String)
    (genCalled : Bool) : MoveOutcome :=
  match target with
  | none =>
    { rooms := rooms,
      result := MoveResult.errorEvent "The way forward is blocked by an invisible force.",
      generatorCalled := genCalled }
  | some t =>
    if t == "" then
      { rooms := rooms,
        result := MoveResult.errorEvent "The way forward is blocked by an invisible force.",
        generatorCalled := genCalled }
    else
      match roomsGet rooms t with
      | none =>
        { rooms := rooms,
          result := MoveResult.errorEvent
            "You feel reality glitch and snap back. The exit goes nowhere.",
          generatorCalled := genCalled }
      | some _ => { rooms := rooms, result := MoveResult.moved t, generatorCalled := genCalled }

/-- The materialization step of the `move` branch: await the content
generator (`genOutcome`), take the first candidate, insert the new room
under the fresh id, and set (or append) the traversed exit.  On generator
failure only the narrative error is produced and nothing is mutated. -/
def materializeExit (rooms : List (String × Room)) (roomId : String) (room : Room)
    (direction : String) (genOutcome : Except Unit WorldBuilderResponse)
    (newRoomId : String) (exitExisted : Bool) : MoveOutcome :=
  match genOutcome with
  | Except.error _ =>
    { rooms := rooms,
      result := MoveResult.errorEvent "The path shimmers and collapses. Try again later.",
      generatorCalled := true }
  | Except.ok llmResult =>
    match llmResult.newRooms.head? with
    | none =>
      { rooms := rooms,
        result := MoveResult.errorEvent
          "The path seems unstable and cannot be traversed right now.",
        generatorCalled := true }
    | some first =>
      -- the source copies each declared exit into a fresh object
      -- (`first.exits.map(e => ({direction: e.direction, targetRoomId: e.targetRoomId}))`),
      -- which is the identity on the exit values
      let newRoom : Room :=
        { id := newRoomId, name := first.name, description := first.description,
          regionId := room.regionId, isHub := first.isHub.getD false,
          exits := first.exits }
      let rooms1 := roomsSet rooms newRoomId newRoom
      let room' : Room :=
        if exitExisted then { room with exits := setExitTarget room.exits direction newRoomId }
        else { room with exits := room.exits ++ [{ direction := direction, targetRoomId := some newRoomId }] }
      let rooms2 := roomsSet rooms1 roomId room'
      finishMove rooms2 (some newRoomId) true

/-- The `move` branch of `handleCommand` (lines 848-921) up to the spawn and
relocation side effects: resolve the exit of the player's room, materialize
it through the generator when unset or absent, and resolve the target room. -/
def resolveMove (rooms : List (String × Room)) (roomId direction : String)
    (genOutcome : Except Unit WorldBuilderResponse) (newRoomId : String) : MoveOutcome :=
  match roomsGet rooms roomId with
  | none => { rooms := rooms, result := MoveResult.noRoom, generatorCalled := false }
  | some room =>
    match findExit room.exits direction with
    | some e =>
      match e.targetRoomId with
      | some t => finishMove rooms (some t) false
      | none => materializeExit rooms roomId room direction genOutcome newRoomId true
    | none => materializeExit rooms roomId room direction genOutcome newRoomId false

/-- A parsed JSON value (`JSON.parse` output). -/
inductive JValue
  | null
  | bool (b : Bool)
  | num (n : Int)
  | str (s : String)
  | arr (elems : List JValue)
  | obj (fields : List (String × JValue))

/-- Property access `parsed.key` on a parsed JSON object. -/
def getField (fields : List (String × JValue)) (key : String) : Option JValue :=
  (fields.find? (fun p => p.1 == key)).map Prod.snd

/-- `ClientCommand` as produced by the server's parser (the shared union plus
the `equip`/`unequip`/`topup` kinds the server accepts). -/
inductive ClientCommand
  | look
  | say (message : String)
  | move (direction : String)
  | setName (name : String)
  | attack (target : String)
  | status
  | topup
  | equip (item : String)
  | unequip (slot : Option UnequipSlot)
  | talk (target : String) (action : Option TalkAction) (item : Option String)
deriving DecidableEq, Repr

/-- The field-testing chain of `parseClientCommand` on an object's fields
(the guard `!parsed || typeof parsed !== "object"` has already passed). -/
def parseFields (fields : List (String × JValue)) : Option ClientCommand :=
  match getField fields "type" with
  | some (JValue.str t) =>
    if t == "look" then some ClientCommand.look
    else if t == "say" then
      match getField fields "message" with
      | some (JValue.str m) => some (ClientCommand.say m)
      | _ => none
    else if t == "move" then
      match getField fields "direction" with
      | some (JValue.str d) => some (ClientCommand.move d)
      | _ => none
    else if t == "setName" then
      match getField fields "name" with
      | some (JValue.str n) => some (ClientCommand.setName n)
      | _ => none
    else if t == "attack" then
      match getField fields "target" with
      | some (JValue.str tg) => some (ClientCommand.attack tg)
      | _ => none
    else if t == "status" then some ClientCommand.status
    else if t == "topup" then some ClientCommand.topup
    else if t == "inventory" then some ClientCommand.status
    else if t == "equip" then
      match getField fields "item" with
      | some (JValue.str i) => some (ClientCommand.equip i)
      | _ => none
    else if t == "unequip" then
      match getField fields "slot" with
      | none => some (ClientCommand.unequip none)
      | some (JValue.str s) =>
        if s == "weapon" then some (ClientCommand.unequip (some UnequipSlot.weapon))
        else if s == "armor" then some (ClientCommand.unequip (some UnequipSlot.armor))
        else none
      | some _ => none
    else if t == "talk" then
      match getField fields "target" with
      | some (JValue.str tg) =>
        let action := match getField fields "action" with
          | some (JValue.str a) =>
            if a == "list" then some TalkAction.list
            else if a == "buy" then some TalkAction.buy
            else if a == "leave" then some TalkAction.leave
            else none
          | _ => none
        let item := match getField fields "item" with
          | some (JValue.str i) => some i
          | _ => none
        some (ClientCommand.talk tg action item)
      | _ => none
    else none
  | _ => none

/-- `parseClientCommand(raw)` after `JSON.parse` succeeded: `null` (JS falsy)
and non-objects are rejected; arrays pass the `typeof` guard but have no
`type` property and fall through to `null` as well. -/
def parseClientCommand (v : JValue) : Option ClientCommand :=
  match v with
  | JValue.obj fields => parseFields fields
  | _ => none

/-- What the socket message handler does with one inbound frame. -/
inductive MessageDisposition
  | malformedError
  | dispatched (cmd : ClientCommand)
deriving DecidableEq, Repr

/-- The `socket.on("message")` handler: a `JSON.parse` failure (`none`) or a
rejected shape produces the `"Malformed command."` error event and nothing
is dispatched; otherwise the parsed command goes to `handleCommand`. -/
def handleRawMessage (parsed : Option JValue) : MessageDisposition :=
  match parsed with
  | none => MessageDisposition.malformedError
  | some v =>
    match parseClientCommand v with
    | none => MessageDisposition.malformedError
    | some cmd => MessageDisposition.dispatched cmd

/-- Whether an optional field holds a JSON string. -/
def isStrField : Option JValue → Bool
  | some (JValue.str _) => true
  | _ => false

/-- Whether an `unequip` slot field is acceptable: absent, `"weapon"` or
`"armor"`. -/
def validSlotField : Option JValue → Bool
  | none => true
  | some (JValue.str s) => s == "weapon" || s == "armor"
  | _ => false

/-- Modelled from the spec: the closed command set exactly as claim C9
words it — `look`, `say{message}`, `move{direction}`, `setName{name}`,
`attack{target}`, `status`, `talk{target, action?, item?}`, `equip{item}`,
`unequip{slot?}`, `topup`, with required fields of string type (and the
`unequip` slot restricted to absent, weapon or armor). -/
def claimedAcceptsCommand (v : JValue) : Bool :=
  match v with
  | JValue.obj fields =>
    match getField fields "type" with
    | some (JValue.str t) =>
      if t == "look" then true
      else if t == "say" then isStrField (getField fields "message")
      else if t == "move" then isStrField (getField fields "direction")
      else if t == "setName" then isStrField (getField fields "name")
      else if t == "attack" then isStrField (getField fields "target")
      else if t == "status" then true
      else if t == "topup" then true
      else if t == "equip" then isStrField (getField fields "item")
      else if t == "unequip" then validSlotField (getField fields "slot")
      else if t == "talk" then isStrField (getField fields "target")
      else false
    | _ => false
  | _ => false

/-- Modelled from the amended claim: the closed command set additionally
contains `inventory`, an alias that the server maps to `status`. -/
def amendedAcceptsCommand (v : JValue) : Bool :=
  match v with
  | JValue.obj fields =>
    match getField fields "type" with
    | some (JValue.str t) =>
      if t == "look" then true
      else if t == "say" then isStrField (getField fields "message")
      else if t == "move" then isStrField (getField fields "direction")
      else if t == "setName" then isStrField (getField fields "name")
      else if t == "attack" then isStrField (getField fields "target")
      else if t == "status" then true
      else if t == "topup" then true
      else if t == "inventory" then true
      else if t == "equip" then isStrField (getField fields "item")
      else if t == "unequip" then validSlotField (getField fields "slot")
      else if t == "talk" then isStrField (getField fields "target")
      else false
    | _ => false
  | _ => false

/-- An inventory-mutating operation of claim C1: a `talk <vendor> buy`,
an `equip` or an `unequip` command. -/
inductive InvOp
  | buyOp (itemName : String)
  | equipOp (itemName : String)
  | unequipOp (slot : Option UnequipSlot)
deriving DecidableEq, Repr

/-- One player session together with the NPCs of its room (here the
vendor). -/
structure SessionState where
  player : PlayerState
  npcs : List PlayerState
deriving DecidableEq, Repr

/-- An operation "reports success" when none of its events is an `error`
event. -/
def emissionsOk (ems : List Emission) : Bool :=
  ems.all (fun e =>
    match e with
    | Emission.toPlayer _ (ServerEvent.error _) => false
    | Emission.toRoom _ (ServerEvent.error _) => false
    | _ => true)

/-- Apply one inventory operation through the corresponding handler
(buying always addresses the vendor Chet, as the source commands do). -/
def stepOp (s : SessionState) : InvOp → SessionState × List Emission
  | InvOp.buyOp n =>
    let r := handleTalk s.player s.npcs "Chet" (some TalkAction.buy) (some n)
    ({ player := r.1, npcs := r.2.1 }, r.2.2)
  | InvOp.equipOp n =>
    let r := handleEquip s.player n
    ({ player := r.1, npcs := s.npcs }, r.2.2)
  | InvOp.unequipOp sl =>
    let r := handleUnequip s.player sl
    ({ player := r.1, npcs := s.npcs }, r.2)

/-- Run a sequence of operations, requiring each one to report success. -/
def runOpsChecked (s : SessionState) : List InvOp → Option SessionState
  | [] => some s
  | op :: rest =>
    let r := stepOp s op
    if emissionsOk r.2 then runOpsChecked r.1 rest else none

/-- The non-empty item slots of an inventory. -/
def occupiedItemSlots (inv : Inventory) : Nat :=
  inv.items.countP (fun s => s.isSome)

/-- 1 when armor is equipped. -/
def armorBit (inv : Inventory) : Nat :=
  if inv.armor.isSome then 1 else 0

/-- 1 when the weapon slot holds something other than the `"fist"`
sentinel. -/
def weaponBit (inv : Inventory) : Nat :=
  match inv.weapon with
  | some w => if toLowerStr w == "fist" then 0 else 1
  | none => 0

/-- The slot count of claim C1: occupied item slots plus the armor and
non-fist weapon bits. -/
def slotCount (inv : Inventory) : Nat :=
  occupiedItemSlots inv + armorBit inv + weaponBit inv

/-- The vendor spawned by `spawnVendorChet()`. -/
def chet : PlayerState :=
  { id := "npc-vendor-chet", name := "Chet",
    description := some "A vendor hunched over a stack of cracked ledgers, ready to cut you up if you are not nice.",
    age := 18, creds := 0, health := 100,
    attackRating := 20, isNpc := true, npcClass := some NpcClass.vendor,
    vendorStock := some [BROKEN_LEDGER, COFFEE, MONSTER, MATE],
    inventory := { createEmptyInventory with weapon := some "Broken Ledger" },
    roomId := "hub-1" }

/-- A freshly admitted player (the `wss.on("connection")` record) with a
topped-up balance of 100 creds. -/
def cexPlayer : PlayerState :=
  { id := "p-1", name := "Wanderer-1", description := none, age := 18,
    creds := 100, health := 100, attackRating := 10, isNpc := false,
    npcClass := none, vendorStock := none, inventory := createEmptyInventory,
    roomId := "hub-1" }

/-- The operation sequence of the C1 counterexample: buy the ledger, equip
it, buy it again, then fill the remaining 19 slots with Monster cans.  Every
operation reports success; afterwards the ledger sits in the weapon slot and
in an item slot at once, and 20 occupied slots plus the equipped weapon
exceed the capacity of 20. -/
def cexOps : List InvOp :=
  InvOp.buyOp "Broken Ledger" :: InvOp.equipOp "Broken Ledger" ::
    InvOp.buyOp "Broken Ledger" :: List.replicate 19 (InvOp.buyOp "Monster")

/-- The final state of the C1 counterexample run. -/
def cexRun : Option SessionState :=
  runOpsChecked { player := cexPlayer, npcs := [chet] } cexOps

/-- Decides that the C1 counterexample run succeeded and that its final
state violates both conjuncts of claim C1. -/
def violatesClaimC1 : Option SessionState → Bool
  | none => false
  | some s =>
    decide (20 < slotCount s.player.inventory) &&
      s.player.inventory.weapon == some "Broken Ledger" &&
      s.player.inventory.items.contains (some "Broken Ledger")

/-- A Normie with 15 health standing in the hub (concrete combat fixture). -/
def normie15 : PlayerState :=
  { id := "npc-n15", name := "Norm", description := some "A normie.", age := 30,
    creds := 7, health := 15, attackRating := NORMIE_ATTACK_RATING, isNpc := true,
    npcClass := some NpcClass.normie, vendorStock := none,
    inventory := createEmptyInventory, roomId := "hub-1" }

/-- The same Normie after one 10-damage hit: 5 health left. -/
def normie5 : PlayerState :=
  { normie15 with health := 5 }

/-- A second connected (non-NPC) player in the hub. -/
def friendPlayer : PlayerState :=
  { id := "p-2", name := "Buddy", description := none, age := 18, creds := 0,
    health := 100, attackRating := 10, isNpc := false, npcClass := none,
    vendorStock := none, inventory := createEmptyInventory, roomId := "hub-1" }

/-- A player holding a Coffee with 95 health (heal-clamp fixture). -/
def coffeePlayer : PlayerState :=
  { cexPlayer with
      health := 95,
      inventory := { createEmptyInventory with
        items := some "Coffee" :: List.replicate 19 none } }

/-- A player whose 20 item slots are all full and who wears armor
(stow-rollback fixture). -/
def fullPackPlayer : PlayerState :=
  { cexPlayer with
      inventory :=
        { weapon := some "fist", armor := some "Vest",
          items := some "Broken Ledger" :: List.replicate 19 (some "Monster") } }

/-- The hub room reduced to one unexplored exit (fixture for the `move`
branch). -/
def hubM : Room :=
  { id := "hub-1", name := "Central Nexus",
    description := "A circular plaza of shifting stone and faint holographic sigils.",
    regionId := some "region-1", isHub := true,
    exits := [{ direction := "north", targetRoomId := none }] }

/-- A room table holding only the hub fixture. -/
def wRooms : List (String × Room) := [("hub-1", hubM)]

/-- A successful content-generator response carrying one candidate room. -/
def genOk : Except Unit WorldBuilderResponse :=
  Except.ok
    { newRooms :=
        [{ name := "Cave", description := "A dark cave.", isHub := none, exits := [] }] }

/-- A concrete NPC profile returned by the profile generator. -/
def bobProfile : NormieProfile :=
  { name := "Bob", description := "Just a normie." }

/-- An exit of a room is resolved to target `t`: the room is in the table,
its first exit for the direction carries the non-falsy target `t`, and `t`
resolves in the room table. -/
def ExitResolved (rooms : List (String × Room)) (roomId direction t : String) : Prop :=
  ∃ room e, roomsGet rooms roomId = some room ∧
    findExit room.exits direction = some e ∧
    e.targetRoomId = some t ∧ (t == "") = false ∧ (roomsGet rooms t).isSome

/-- The NPC record produced by the C5 witness spawn (all draws 0). -/
def bobNpc : PlayerState :=
  { id := "npc-n1", name := "Bob", description := some "Just a normie.", age := 18,
    creds := 0, health := 15, attackRating := 10, isNpc := true,
    npcClass := some NpcClass.normie, vendorStock := none,
    inventory := createEmptyInventory, roomId := "hub-1" }

/-- The inbound frame `type: "inventory"` of the C9 counterexample. -/
def invMsg : JValue :=
  JValue.obj [("type", JValue.str "inventory")]

/-- A player with a completely full pack and a non-fist weapon equipped
(fixture showing the stow of the displaced weapon still succeeds). -/
def stowPlayer : PlayerState :=
  { cexPlayer with
      inventory :=
        { weapon := some "Broken Ledger", armor := none,
          items := List.replicate 20 (some "Broken Ledger") } }

/-- The session after the witness run of the C1 invariant: one Coffee bought
from Chet. -/
def w1State : SessionState :=
  { player :=
      { cexPlayer with
          creds := 98,
          inventory := { createEmptyInventory with
            items := some "Coffee" :: List.replicate 19 none } },
    npcs := [{ chet with creds := 2 }] }

theorem addItemFirstFree_length {x : String} {l l' : List (Option String)}
    (h : addItemFirstFree x l = some l') : l'.length = l.length := by
  induction l generalizing l' with
  | nil => simp [addItemFirstFree] at h
  | cons s rest ih =>
    cases s with
    | none =>
      simp only [addItemFirstFree, Option.some.injEq] at h
      subst h
      simp
    | some y =>
      simp only [addItemFirstFree, Option.map_eq_some'] at h
      obtain ⟨r, hr, hb⟩ := h
      subst hb
      simp [ih hr]

theorem removeItemFirstMatch_length {x f : String} {l l' : List (Option String)}
    (h : removeItemFirstMatch x l = some (f, l')) : l'.length = l.length := by
  induction l generalizing l' with
  | nil => simp [removeItemFirstMatch] at h
  | cons s rest ih =>
    simp only [removeItemFirstMatch] at h
    split at h
    · cases s with
      | none => exact absurd h (by simp)
      | some found =>
        simp only [Option.some.injEq, Prod.mk.injEq] at h
        obtain ⟨-, h2⟩ := h
        subst h2
        simp
    · simp only [Option.map_eq_some'] at h
      obtain ⟨⟨a1, a2⟩, hr, hb⟩ := h
      simp only [Prod.mk.injEq] at hb
      obtain ⟨h1, h2⟩ := hb
      subst h1
      subst h2
      simpa using ih hr

theorem mem_none_of_removeItemFirstMatch {x f : String} {l l' : List (Option String)}
    (h : removeItemFirstMatch x l = some (f, l')) : none ∈ l' := by
  induction l generalizing l' with
  | nil => simp [removeItemFirstMatch] at h
  | cons s rest ih =>
    simp only [removeItemFirstMatch] at h
    split at h
    · cases s with
      | none => exact absurd h (by simp)
      | some found =>
        simp only [Option.some.injEq, Prod.mk.injEq] at h
        obtain ⟨-, h2⟩ := h
        subst h2
        exact List.mem_cons_self _ _
    · simp only [Option.map_eq_some'] at h
      obtain ⟨⟨a1, a2⟩, hr, hb⟩ := h
      simp only [Prod.mk.injEq] at hb
      obtain ⟨h1, h2⟩ := hb
      subst h1
      subst h2
      exact List.mem_cons_of_mem _ (ih hr)

theorem slotMatches_of_removeItemFirstMatch {x f : String} {l l' : List (Option String)}
    (h : removeItemFirstMatch x l = some (f, l')) : slotMatches x (some f) = true := by
  induction l generalizing l' with
  | nil => simp [removeItemFirstMatch] at h
  | cons s rest ih =>
    simp only [removeItemFirstMatch] at h
    split at h
    · rename_i hmatch
      cases s with
      | none => exact absurd h (by simp)
      | some found =>
        simp only [Option.some.injEq, Prod.mk.injEq] at h
        obtain ⟨h1, -⟩ := h
        subst h1
        exact hmatch
    · simp only [Option.map_eq_some'] at h
      obtain ⟨⟨a1, a2⟩, hr, hb⟩ := h
      simp only [Prod.mk.injEq] at hb
      obtain ⟨h1, h2⟩ := hb
      subst h1
      subst h2
      exact ih hr

theorem addItemFirstFree_isSome_of_mem_none {x : String} {l : List (Option String)}
    (h : none ∈ l) : (addItemFirstFree x l).isSome := by
  induction l with
  | nil => cases h
  | cons s rest ih =>
    cases s with
    | none => simp [addItemFirstFree]
    | some y =>
      have hrest : none ∈ rest := by
        rcases List.mem_cons.mp h with h1 | h2
        · cases h1
        · exact h2
      simp only [addItemFirstFree, Option.isSome_map']
      exact ih hrest

theorem addItemToInventory_items_length {inv inv' : Inventory} {x : String}
    (h : addItemToInventory inv x = some inv') : inv'.items.length = inv.items.length := by
  simp only [addItemToInventory, Option.map_eq_some'] at h
  obtain ⟨items', h1, hb⟩ := h
  subst hb
  simpa using addItemFirstFree_length h1

theorem addItemFirstFree_getD_length (x : String) (l : List (Option String)) :
    ((addItemFirstFree x l).getD l).length = l.length := by
  cases h : addItemFirstFree x l with
  | none => simp
  | some l2 => simp [addItemFirstFree_length h]

theorem handleTalk_items_length (player : PlayerState) (npcs : List PlayerState)
    (target : String) (action : Option TalkAction) (itemName : Option String) :
    (handleTalk player npcs target action itemName).1.inventory.items.length
      = player.inventory.items.length := by
  simp only [handleTalk]
  repeat' split
  all_goals first
    | rfl
    | exact addItemToInventory_items_length (by assumption)

theorem handleEquip_items_length (player : PlayerState) (rawItem : String) :
    (handleEquip player rawItem).1.inventory.items.length
      = player.inventory.items.length := by
  simp only [handleEquip, finishEquipWeapon, finishEquipArmor]
  repeat' split
  all_goals first
    | rfl
    | exact removeItemFirstMatch_length (by assumption)
    | exact (addItemFirstFree_getD_length _ _).trans
        (removeItemFirstMatch_length (by assumption))
    | exact (addItemFirstFree_length (by assumption)).trans
        (removeItemFirstMatch_length (by assumption))

theorem handleUnequip_items_length (player : PlayerState) (slotArg : Option UnequipSlot) :
    (handleUnequip player slotArg).1.inventory.items.length
      = player.inventory.items.length := by
  simp only [handleUnequip, unequipToFists]
  repeat' split
  all_goals first
    | rfl
    | exact addItemFirstFree_length (by assumption)

theorem stepOp_items_length (s : SessionState) (op : InvOp) :
    (stepOp s op).1.player.inventory.items.length
      = s.player.inventory.items.length := by
  cases op with
  | buyOp n => exact handleTalk_items_length s.player s.npcs "Chet" (some TalkAction.buy) (some n)
  | equipOp n => exact handleEquip_items_length s.player n
  | unequipOp sl => exact handleUnequip_items_length s.player sl

theorem runOpsChecked_items_length {ops : List InvOp} {s s' : SessionState}
    (h : runOpsChecked s ops = some s') :
    s'.player.inventory.items.length = s.player.inventory.items.length := by
  induction ops generalizing s with
  | nil =>
    simp only [runOpsChecked, Option.some.injEq] at h
    subst h
    rfl
  | cons op rest ih =>
    simp only [runOpsChecked] at h
    split at h
    · exact (ih h).trans (stepOp_items_length s op)
    · exact absurd h (by simp)

/-- Claim C1 (amended): for every player and every sequence of equip,
unequip and buy operations that individually report success, the item-slot
array keeps exactly its 20 slots (operations never invent or destroy
slots), and the number of non-empty item slots plus the armor bit plus the
non-fist weapon bit never exceeds 22 (at most 20 occupied slots plus the
two equipment slots).  The bound of 20 on the combined count claimed
originally, and the absence of a name shared between the weapon/armor slot
and the item-slot array, are refuted by the associated counterexample. -/
theorem C1_slot_invariant (s0 s1 : SessionState) (ops : List InvOp)
    (hlen : s0.player.inventory.items.length = 20)
    (hrun : runOpsChecked s0 ops = some s1) :
    s1.player.inventory.items.length = 20 ∧ slotCount s1.player.inventory ≤ 22 := by
  have h1 : s1.player.inventory.items.length = 20 :=
    (runOpsChecked_items_length hrun).trans hlen
  refine ⟨h1, ?_⟩
  have h2 : occupiedItemSlots s1.player.inventory ≤ 20 := by
    have := List.countP_le_length (l := s1.player.inventory.items)
      (p := fun s => s.isSome)
    simpa [occupiedItemSlots, h1] using this
  have h3 : armorBit s1.player.inventory ≤ 1 := by
    unfold armorBit
    split <;> omega
  have h4 : weaponBit s1.player.inventory ≤ 1 := by
    unfold weaponBit
    repeat' split
    all_goals omega
  unfold slotCount
  omega

/-- Witness for the amended claim C1: buying one Coffee from Chet succeeds
and the invariant holds on the resulting state. -/
theorem C1_slot_invariant_witness :
    w1State.player.inventory.items.length = 20 ∧ slotCount w1State.player.inventory ≤ 22 :=
  C1_slot_invariant { player := cexPlayer, npcs := [chet] } w1State
    [InvOp.buyOp "Coffee"] (by decide) (by decide)

/-- Counterexample to claim C1 as stated: starting from a fresh inventory
with 100 creds, the operation sequence `cexOps` (buy Broken Ledger, equip
it, buy it again, then 19 Monsters) reports success at every step, yet the
final state has 20 occupied item slots plus an equipped non-fist weapon
(count 21 > capacity 20) and holds "Broken Ledger" in the weapon slot and
in an item slot simultaneously. -/
theorem C1_counterexample : violatesClaimC1 cexRun = true := by decide

theorem list_map_id_of_forall {α : Type} {l : List α} {f : α → α}
    (h : ∀ a ∈ l, f a = a) : l.map f = l := by
  induction l with
  | nil => rfl
  | cons a rest ih =>
    simp only [List.map_cons]
    rw [h a (by simp), ih (fun b hb => h b (by simp [hb]))]

theorem replaceById_self {npcs : List PlayerState} {v : PlayerState}
    (hnd : (npcs.map PlayerState.id).Nodup) (hv : v ∈ npcs) :
    replaceById npcs v = npcs := by
  unfold replaceById
  apply list_map_id_of_forall
  intro n hn
  by_cases h : (n.id == v.id) = true
  · have hid : n.id = v.id := by simpa using h
    have heq : n = v := List.inj_on_of_nodup_map hnd hn hv hid
    simp [h, heq]
  · simp [h]

/-- Claim C2 (confirmed): a `talk … buy` that fails because the buyer's
currency is strictly below the item's cost, or because no item slot is
free, sends an `error` event to the buyer and leaves the buyer (currency
and inventory) and the room's NPCs (hence the vendor's balance) exactly as
they were; the slot-failure case goes through the two-step refund/re-debit
of the source and lands back on the original balances. -/
theorem C2_buy_rollback (player : PlayerState) (npcs : List PlayerState)
    (target iname : String) (vendor : PlayerState) (desired : VendorStockItem)
    (hnd : (npcs.map PlayerState.id).Nodup)
    (hv : findVendorInRoom npcs target = some vendor)
    (hchet : toLowerStr vendor.name = "chet")
    (hstock : (vendor.vendorStock.getD []).find?
        (fun it => toLowerStr it.name == toLowerStr iname) = some desired)
    (hfail : player.creds < desired.cost.getD 0 ∨
      addItemFirstFree desired.name player.inventory.items = none) :
    (handleTalk player npcs target (some TalkAction.buy) (some iname)).1 = player ∧
    (handleTalk player npcs target (some TalkAction.buy) (some iname)).2.1 = npcs ∧
    ∃ msg, (handleTalk player npcs target (some TalkAction.buy) (some iname)).2.2
      = [Emission.toPlayer player.id (ServerEvent.error msg)] := by
  have hmem : vendor ∈ npcs := by
    apply List.mem_of_find?_eq_some
    simpa [findVendorInRoom] using hv
  have hne : (toLowerStr vendor.name != "chet") = false := by simp [hchet]
  by_cases hcred : player.creds < desired.cost.getD 0
  · simp only [handleTalk, hv, hne, Bool.false_eq_true, if_false, hstock, if_pos hcred]
    exact ⟨trivial, trivial, _, rfl⟩
  · rcases hfail with hfail | hadd
    · exact absurd hfail hcred
    · simp only [handleTalk, hv, hne, Bool.false_eq_true, if_false, hstock,
        if_neg hcred, addItemToInventory, hadd, Option.map_none']
      have hpc : player.creds - desired.cost.getD 0 + desired.cost.getD 0 = player.creds := by
        omega
      have hvc : vendor.creds + desired.cost.getD 0 - desired.cost.getD 0 = vendor.creds := by
        omega
      refine ⟨?_, ?_, _, rfl⟩
      · rw [hpc]
      · have hv2 :
            ({ vendor with creds := (vendor.creds + desired.cost.getD 0 - desired.cost.getD 0) } : PlayerState)
              = vendor := by
          rw [hvc]
        rw [hv2]
        exact replaceById_self hnd hmem

/-- Witness for claim C2: concrete scenario D — buying the 20-cred Broken
Ledger with 15 creds fails with the priced `error` event, the buyer still
holds 15 creds, the vendor is unchanged, and no item was added. -/
theorem C2_buy_rollback_witness :
    (handleTalk { cexPlayer with creds := 15 } [chet] "Chet"
        (some TalkAction.buy) (some "Broken Ledger")).1 = { cexPlayer with creds := 15 } ∧
    (handleTalk { cexPlayer with creds := 15 } [chet] "Chet"
        (some TalkAction.buy) (some "Broken Ledger")).2.1 = [chet] ∧
    (handleTalk { cexPlayer with creds := 15 } [chet] "Chet"
        (some TalkAction.buy) (some "Broken Ledger")).2.2
      = [Emission.toPlayer "p-1" (ServerEvent.error
          "You need 20 creds to buy Broken Ledger, but you only have 15.")] := by
  have h := C2_buy_rollback { cexPlayer with creds := 15 } [chet] "Chet" "Broken Ledger"
    chet BROKEN_LEDGER (by decide) (by decide) (by decide) (by decide)
    (Or.inl (by decide))
  exact ⟨h.1, h.2.1, by decide⟩

theorem identifyItem_key_ne_empty {f : String} {d : ItemDefinition}
    (h : identifyItem f = some d) : toLowerStr f ≠ "" := by
  simp only [identifyItem, Option.map_eq_some'] at h
  obtain ⟨a, ha, -⟩ := h
  have hp := List.find?_some ha
  have hmem := List.mem_of_find?_eq_some ha
  have hkey : a.1 = toLowerStr f := by simpa using hp
  rw [← hkey]
  fin_cases hmem <;> decide

theorem trim_ne_empty_of_equip {rawItem f : String} {l l' : List (Option String)}
    {d : ItemDefinition}
    (hrem : removeItemFirstMatch (trimStr rawItem) l = some (f, l'))
    (hid : identifyItem f = some d) : (trimStr rawItem == "") = false := by
  have hsm := slotMatches_of_removeItemFirstMatch hrem
  simp only [slotMatches] at hsm
  have h1 : toLowerStr f = toLowerStr (trimStr rawItem) := by simpa using hsm
  have h2 := identifyItem_key_ne_empty hid
  apply beq_eq_false_iff_ne.mpr
  intro he
  have h3 : toLowerStr (trimStr rawItem) = "" := by rw [he]; decide
  exact h2 (h1.trans h3)

/-- Claim C10 (confirmed): when `equip` finds the named item in the item
slots and its catalog category is weapon or armor, the stow of the
currently equipped weapon (non-fist) or armor cannot fail: clearing the
drawn item's slot first always leaves a free slot, so the "No space to
stow" branch is unreachable and the equip completes with the corresponding
success outcome. -/
theorem C10_stow_never_fails (player : PlayerState) (rawItem : String)
    (foundItem : String) (items1 : List (Option String)) (definition : ItemDefinition)
    (hrem : removeItemFirstMatch (trimStr rawItem) player.inventory.items
      = some (foundItem, items1))
    (hid : identifyItem foundItem = some definition)
    (htype : definition.type = ItemType.weapon ∨ definition.type = ItemType.armor) :
    (handleEquip player rawItem).2.1
      = (if definition.type = ItemType.weapon then EquipOutcome.equippedWeapon foundItem
          else EquipOutcome.equippedArmor foundItem) := by
  have hne := trim_ne_empty_of_equip hrem hid
  have hfree : none ∈ items1 := mem_none_of_removeItemFirstMatch hrem
  simp only [handleEquip, hne, Bool.false_eq_true, if_false, hrem, hid]
  rcases htype with ht | ht
  · rw [ht]
    simp only [reduceIte]
    cases hw : player.inventory.weapon with
    | none => rfl
    | some w =>
      by_cases hf : (toLowerStr w == "fist") = true
      · simp [hf, finishEquipWeapon]
      · cases haf : addItemFirstFree w items1 with
        | none =>
          exact absurd (addItemFirstFree_isSome_of_mem_none (x := w) hfree) (by simp [haf])
        | some items2 => simp [hf, haf, finishEquipWeapon]
  · rw [ht]
    simp only [reduceIte]
    cases ha : player.inventory.armor with
    | none => rfl
    | some a =>
      cases haf : addItemFirstFree a items1 with
      | none =>
        exact absurd (addItemFirstFree_isSome_of_mem_none (x := a) hfree) (by simp [haf])
      | some items2 => simp [haf, finishEquipArmor]

/-- Witness for claim C10: with every one of the 20 slots full and a
Broken Ledger already wielded, equipping the Broken Ledger drawn from the
pack still succeeds — the drawn item's slot takes the stowed weapon. -/
theorem C10_stow_never_fails_witness :
    (handleEquip stowPlayer "Broken Ledger").2.1
      = EquipOutcome.equippedWeapon "Broken Ledger" := by
  have h := C10_stow_never_fails stowPlayer "Broken Ledger" "Broken Ledger"
    (none :: List.replicate 19 (some "Broken Ledger"))
    { type := ItemType.weapon, attackRating := some 20, healAmount := none }
    (by decide) (by decide) (Or.inl rfl)
  simpa using h

/-- Claim C6 (amended): `attack` resolves its combat target by
case-insensitive name match restricted to NPCs of class `normie` in the
room.  Attacking another Player is rejected with a descriptive `system`
refusal that is not an `error` event and changes nothing; attacking a
vendor (or any name with no Normie match) is rejected with the
`error` event "There is no Normie named … here." — not, as originally
claimed, with a non-error refusal. -/
theorem C6_attack_target_resolution (player : PlayerState)
    (otherPlayers npcsInRoom : List PlayerState) (target : String) :
    (∀ q, (otherPlayers ++ npcsInRoom).find? (friendlyTargetPred target) = some q →
      handleAttack player otherPlayers npcsInRoom target
        = (player, npcsInRoom,
            [Emission.toPlayer player.id (ServerEvent.system
              ("You cannot attack the friendly " ++ q.name ++ "."))])) ∧
    ((otherPlayers ++ npcsInRoom).find? (friendlyTargetPred target) = none →
      findNormieInRoom npcsInRoom target = none →
      handleAttack player otherPlayers npcsInRoom target
        = (player, npcsInRoom,
            [Emission.toPlayer player.id (ServerEvent.error
              ("There is no Normie named " ++ target ++ " here."))])) ∧
    (∀ q, (otherPlayers ++ npcsInRoom).find? (friendlyTargetPred target) = some q →
      q.isNpc = false ∧ toLowerStr q.name = toLowerStr target) ∧
    (∀ npc, findNormieInRoom npcsInRoom target = some npc →
      npc.npcClass = some NpcClass.normie ∧ toLowerStr npc.name = toLowerStr target) := by
  refine ⟨?_, ?_, ?_, ?_⟩
  · intro q hq
    simp only [handleAttack, hq]
  · intro h1 h2
    simp only [handleAttack, h1, h2]
  · intro q hq
    have hp := List.find?_some hq
    simp only [friendlyTargetPred, Bool.and_eq_true, Bool.not_eq_true', beq_iff_eq] at hp
    exact hp
  · intro npc hq
    have hp := List.find?_some hq
    simp only [Bool.and_eq_true, beq_iff_eq] at hp
    exact hp

/-- Counterexample to claim C6 as stated: attacking the vendor Chet is
answered with an `error` event, not with a non-error refusal message. -/
theorem C6_counterexample :
    handleAttack cexPlayer [] [chet] "Chet"
      = (cexPlayer, [chet],
          [Emission.toPlayer "p-1"
            (ServerEvent.error "There is no Normie named Chet here.")]) := by
  decide

/-- Witness for the amended claim C6: attacking the fellow player Buddy
yields the friendly `system` refusal and no state change. -/
theorem C6_attack_target_resolution_witness :
    handleAttack cexPlayer [friendPlayer] [] "Buddy"
      = (cexPlayer, [],
          [Emission.toPlayer "p-1"
            (ServerEvent.system "You cannot attack the friendly Buddy.")]) := by
  have h := (C6_attack_target_resolution cexPlayer [friendPlayer] [] "Buddy").1
    friendPlayer (by decide)
  exact h.trans (by decide)

/-- Claim C7 (confirmed): every resolved attack first broadcasts the attack
message with the defender's remaining hp; when the defender's health
reaches 0 the Normie is removed from the directory, a defeat message is
broadcast, its currency — if positive — is credited to the attacker with a
unicast loot message, and no retaliation damage is applied (the attacker's
health is unchanged). -/
theorem C7_defeat_and_loot (player : PlayerState)
    (otherPlayers npcsInRoom : List PlayerState) (target : String) (npc : PlayerState)
    (hfr : (otherPlayers ++ npcsInRoom).find? (friendlyTargetPred target) = none)
    (hn : findNormieInRoom npcsInRoom target = some npc) :
    (handleAttack player otherPlayers npcsInRoom target).2.2.head?
      = some (Emission.toRoom player.roomId (ServerEvent.system
          (player.name ++ " attacks " ++ npc.name ++ " with "
            ++ player.inventory.weapon.getD "their fist" ++ " for "
            ++ toString (max 0 player.attackRating) ++ " damage. ("
            ++ toString (max 0 (npc.health - max 0 player.attackRating)) ++ " hp left)"))) ∧
    (npc.health - max 0 player.attackRating ≤ 0 →
      (handleAttack player otherPlayers npcsInRoom target).2.1
          = npcsInRoom.filter (fun n => n.id != npc.id) ∧
      (handleAttack player otherPlayers npcsInRoom target).2.2
          = [Emission.toRoom player.roomId (ServerEvent.system
              (player.name ++ " attacks " ++ npc.name ++ " with "
                ++ player.inventory.weapon.getD "their fist" ++ " for "
                ++ toString (max 0 player.attackRating) ++ " damage. ("
                ++ toString (max 0 (npc.health - max 0 player.attackRating)) ++ " hp left)")),
             Emission.toRoom player.roomId (ServerEvent.system
               (npc.name ++ " is defeated and slinks away."))]
            ++ (if 0 < npc.creds then
                  [Emission.toPlayer player.id (ServerEvent.system
                    ("You collect " ++ toString npc.creds ++ " creds from " ++ npc.name
                      ++ ". You now have " ++ toString (player.creds + npc.creds) ++ "."))]
                else []) ∧
      (handleAttack player otherPlayers npcsInRoom target).1.creds
          = player.creds + (if 0 < npc.creds then npc.creds else 0) ∧
      (handleAttack player otherPlayers npcsInRoom target).1.health = player.health) := by
  constructor
  · simp only [handleAttack, hfr, hn]
    split
    · split
      · rfl
      · rfl
    · split
      · rfl
      · rfl
  · intro hkill
    have hcond : max 0 (npc.health - max 0 player.attackRating) ≤ 0 :=
      max_le le_rfl hkill
    simp only [handleAttack, hfr, hn, if_pos hcond]
    by_cases hloot : 0 < npc.creds
    · simp only [if_pos hloot]
      refine ⟨?_, ?_, ?_, ?_⟩ <;> trivial
    · simp only [if_neg hloot]
      refine ⟨?_, ?_, ?_, ?_⟩ <;> first | trivial | simp

/-- Witness for claim C7: concrete scenario C — an attacker with rating 10
against a 15-health Normie broadcasts "(5 hp left)"; against the resulting
5-health Normie the next attack reaches 0 hp, removes the Normie, credits
its 7 creds, and applies no retaliation. -/
theorem C7_defeat_and_loot_witness :
    (handleAttack cexPlayer [] [normie15] "Norm").2.2.head?
      = some (Emission.toRoom "hub-1" (ServerEvent.system
          "Wanderer-1 attacks Norm with fist for 10 damage. (5 hp left)")) ∧
    (handleAttack cexPlayer [] [normie5] "Norm").2.1 = [] ∧
    (handleAttack cexPlayer [] [normie5] "Norm").1.creds = 107 ∧
    (handleAttack cexPlayer [] [normie5] "Norm").1.health = 100 ∧
    (handleAttack cexPlayer [] [normie5] "Norm").2.2
      = [Emission.toRoom "hub-1" (ServerEvent.system
            "Wanderer-1 attacks Norm with fist for 10 damage. (0 hp left)"),
         Emission.toRoom "hub-1" (ServerEvent.system "Norm is defeated and slinks away."),
         Emission.toPlayer "p-1" (ServerEvent.system
            "You collect 7 creds from Norm. You now have 107.")] := by
  have h1 := (C7_defeat_and_loot cexPlayer [] [normie15] "Norm" normie15
    (by decide) (by decide)).1
  have h2 := (C7_defeat_and_loot cexPlayer [] [normie5] "Norm" normie5
    (by decide) (by decide)).2 (by decide)
  exact ⟨h1.trans (by decide), h2.1.trans (by decide), h2.2.2.1.trans (by decide),
    h2.2.2.2.trans (by decide), h2.2.1.trans (by decide)⟩

theorem clamp_floor_nonneg (h d : Int) : 0 ≤ max 0 (h - max 0 d) :=
  le_max_left _ _

theorem clamp_floor_le_self {h : Int} (d : Int) (h0 : 0 ≤ h) :
    max 0 (h - max 0 d) ≤ h := by
  have h1 : 0 ≤ max 0 d := le_max_left _ _
  exact max_le h0 (by omega)

theorem heal_clamp_bounds {h a : Int} (h0 : 0 ≤ h) (_h1 : h ≤ 100) :
    0 ≤ min 100 (h + max 0 a) ∧ min 100 (h + max 0 a) ≤ 100 := by
  have hm := le_max_left (0 : Int) a
  exact ⟨le_min (by norm_num) (by linarith), min_le_left _ _⟩

theorem heal_self_le {h a : Int} (h1 : h ≤ 100) :
    h ≤ min 100 (h + max 0 a) := by
  have hm := le_max_left (0 : Int) a
  exact le_min h1 (by linarith)

theorem mem_replaceById {l : List PlayerState} {v n : PlayerState}
    (h : n ∈ replaceById l v) : n = v ∨ n ∈ l := by
  unfold replaceById at h
  obtain ⟨m, hm, he⟩ := List.mem_map.mp h
  by_cases hc : (m.id == v.id) = true
  · left
    rw [← he]
    simp [hc]
  · right
    rw [← he]
    simpa [hc] using hm

/-- Claim C8 (confirmed): attack and retaliation damage are floored at 0
(health never increases from being hit), combat keeps every occupant's
health inside `[0, 100]`, and consuming a healing item clamps health at the
maximum of 100 with the reported healed amount equal to the actual health
change (possibly 0 at full health). -/
theorem C8_health_clamps (player : PlayerState)
    (otherPlayers npcsInRoom : List PlayerState) (target rawItem : String)
    (hp0 : 0 ≤ player.health) (hp1 : player.health ≤ 100)
    (hn : ∀ n ∈ npcsInRoom, 0 ≤ n.health ∧ n.health ≤ 100) :
    (0 ≤ (handleAttack player otherPlayers npcsInRoom target).1.health ∧
      (handleAttack player otherPlayers npcsInRoom target).1.health ≤ player.health) ∧
    (∀ n ∈ (handleAttack player otherPlayers npcsInRoom target).2.1,
      0 ≤ n.health ∧ n.health ≤ 100) ∧
    (0 ≤ (handleEquip player rawItem).1.health ∧
      (handleEquip player rawItem).1.health ≤ 100) ∧
    (∀ found healed, (handleEquip player rawItem).2.1 = EquipOutcome.consumed found healed →
      healed = (handleEquip player rawItem).1.health - player.health ∧ 0 ≤ healed) := by
  refine ⟨?_, ?_, ?_, ?_⟩
  · simp only [handleAttack]
    split
    · exact ⟨hp0, le_rfl⟩
    · split
      · exact ⟨hp0, le_rfl⟩
      · split
        · split
          · exact ⟨hp0, le_rfl⟩
          · exact ⟨hp0, le_rfl⟩
        · split
          · exact ⟨clamp_floor_nonneg _ _, clamp_floor_le_self _ hp0⟩
          · exact ⟨clamp_floor_nonneg _ _, clamp_floor_le_self _ hp0⟩
  · simp only [handleAttack]
    split
    · exact hn
    · split
      · exact hn
      · rename_i npc hfind
        have hmem : npc ∈ npcsInRoom := by
          apply List.mem_of_find?_eq_some
          simpa [findNormieInRoom] using hfind
        have hnb := hn npc hmem
        split
        · split
          · intro n hn'
            exact hn n (List.mem_of_mem_filter hn')
          · intro n hn'
            exact hn n (List.mem_of_mem_filter hn')
        · have hrep : ∀ n ∈ replaceById npcsInRoom
              { npc with health := max 0 (npc.health - max 0 player.attackRating) },
              0 ≤ n.health ∧ n.health ≤ 100 := by
            intro n hn'
            rcases mem_replaceById hn' with h | h
            · subst h
              refine ⟨clamp_floor_nonneg _ _, ?_⟩
              exact le_trans (clamp_floor_le_self _ hnb.1) hnb.2
            · exact hn n h
          split
          · exact hrep
          · exact hrep
  · simp only [handleEquip, finishEquipWeapon, finishEquipArmor, PLAYER_MAX_HEALTH]
    repeat' split
    all_goals try exact ⟨hp0, hp1⟩
    all_goals exact heal_clamp_bounds hp0 hp1
  · simp only [handleEquip, finishEquipWeapon, finishEquipArmor, PLAYER_MAX_HEALTH]
    repeat' split
    all_goals intro found healed heq
    all_goals simp only [EquipOutcome.consumed.injEq] at heq
    all_goals obtain ⟨-, h2⟩ := heq
    all_goals subst h2
    all_goals exact ⟨by simp, sub_nonneg.mpr (heal_self_le hp1)⟩

/-- Witness for claim C8: a 95-health player attacked by nothing unusual
stays in `[0, 100]`, and consuming a Coffee at 95 health clamps at 100 with
a reported heal of 5. -/
theorem C8_health_clamps_witness :
    (0 ≤ (handleAttack coffeePlayer [] [normie15] "Norm").1.health ∧
      (handleAttack coffeePlayer [] [normie15] "Norm").1.health ≤ coffeePlayer.health) ∧
    (0 ≤ (handleEquip coffeePlayer "Coffee").1.health ∧
      (handleEquip coffeePlayer "Coffee").1.health ≤ 100) ∧
    (handleEquip coffeePlayer "Coffee").2.1 = EquipOutcome.consumed "Coffee" 5 ∧
    (handleEquip coffeePlayer "Coffee").1.health = 100 := by
  have h := C8_health_clamps coffeePlayer [] [normie15] "Norm" "Coffee"
    (by decide) (by decide) (by decide)
  exact ⟨h.1, h.2.2.1, by decide, by decide⟩

/-- Claim C5 (confirmed): `maybeSpawnNormie` spawns an NPC only when the
room's Normie count is below the cap of 3 (the source gates on the whole
NPC count of the room, which bounds the Normie count from above) and the
uniform draw passes the 0.35 threshold; the spawned NPC has health in
[15,100], attack rating 10 and currency in [0,50], and its arrival is
broadcast to the room as a system message; failure of the profile
generator is swallowed — the call returns no NPC and no events instead of
propagating the failure, so movement is never blocked. -/
theorem C5_spawn_policy (npcsInRoom : List PlayerState) (roomId : String)
    (spawnDraw healthDraw credsDraw ageDraw : ℚ) (profile : NormieProfile)
    (freshId : String)
    (hh0 : 0 ≤ healthDraw) (hh1 : healthDraw < 1)
    (hc0 : 0 ≤ credsDraw) (hc1 : credsDraw < 1) :
    (∀ npc,
      (maybeSpawnNormie npcsInRoom roomId spawnDraw healthDraw credsDraw ageDraw
          (Except.ok profile) freshId).1 = some npc →
        normieCount npcsInRoom < 3 ∧ spawnDraw ≤ 35 / 100 ∧
        15 ≤ npc.health ∧ npc.health ≤ 100 ∧
        npc.attackRating = NORMIE_ATTACK_RATING ∧
        0 ≤ npc.creds ∧ npc.creds ≤ 50 ∧
        (maybeSpawnNormie npcsInRoom roomId spawnDraw healthDraw credsDraw ageDraw
            (Except.ok profile) freshId).2
          = [Emission.toRoom roomId (ServerEvent.system
              ("A Normie named " ++ profile.name ++ " appears. " ++ profile.description))]) ∧
    maybeSpawnNormie npcsInRoom roomId spawnDraw healthDraw credsDraw ageDraw
        (Except.error ()) freshId = (none, []) := by
  constructor
  · intro npc hs
    by_cases hcap : MAX_NORMIES_PER_ROOM ≤ npcsInRoom.length
    · simp [maybeSpawnNormie, hcap] at hs
    · by_cases hdraw : (35 : ℚ) / 100 < spawnDraw
      · simp [maybeSpawnNormie, hcap, hdraw] at hs
      · have hcount : normieCount npcsInRoom < 3 := by
          have hle := List.countP_le_length
            (p := fun n => n.npcClass == some NpcClass.normie) (l := npcsInRoom)
          unfold normieCount
          unfold MAX_NORMIES_PER_ROOM at hcap
          omega
        simp only [maybeSpawnNormie, if_neg hcap, if_neg hdraw, Option.some.injEq] at hs
        subst hs
        dsimp only
        refine ⟨hcount, le_of_not_lt hdraw, ?_, ?_, rfl, ?_, ?_, ?_⟩
        · apply Int.le_floor.mpr
          have : 0 ≤ healthDraw * ((100 : ℚ) - 15 + 1) := by
            apply mul_nonneg hh0
            norm_num
          push_cast
          linarith
        · have hlt : healthDraw * ((100 : ℚ) - 15 + 1) + 15 < 101 := by
            have := mul_lt_mul_of_pos_right hh1 (show (0 : ℚ) < 86 by norm_num)
            norm_num at this ⊢
            linarith
          have := Int.floor_lt.mpr (by push_cast; exact hlt :
            healthDraw * ((100 : ℚ) - 15 + 1) + 15 < ((101 : Int) : ℚ))
          omega
        · apply Int.le_floor.mpr
          have : 0 ≤ credsDraw * (51 : ℚ) := by
            apply mul_nonneg hc0
            norm_num
          push_cast
          linarith
        · have hlt : credsDraw * (51 : ℚ) < 51 := by
            have := mul_lt_mul_of_pos_right hc1 (show (0 : ℚ) < 51 by norm_num)
            linarith
          have := Int.floor_lt.mpr (by push_cast; exact hlt :
            credsDraw * (51 : ℚ) < ((51 : Int) : ℚ))
          omega
        · simp only [maybeSpawnNormie, if_neg hcap, if_neg hdraw]
  · simp only [maybeSpawnNormie]
    repeat' split
    all_goals rfl

/-- Witness for claim C5: with an empty room, all draws 0 and the profile
"Bob", a Normie with health 15, attack rating 10 and 0 creds spawns and
its arrival is broadcast; with the generator failing, nothing happens. -/
theorem C5_spawn_policy_witness :
    normieCount [] < 3 ∧ (0 : ℚ) ≤ 35 / 100 ∧
    15 ≤ bobNpc.health ∧ bobNpc.health ≤ 100 ∧
    bobNpc.attackRating = NORMIE_ATTACK_RATING ∧
    0 ≤ bobNpc.creds ∧ bobNpc.creds ≤ 50 ∧
    (maybeSpawnNormie [] "hub-1" 0 0 0 0 (Except.ok bobProfile) "n1").2
      = [Emission.toRoom "hub-1" (ServerEvent.system
          "A Normie named Bob appears. Just a normie.")] ∧
    maybeSpawnNormie [] "hub-1" 0 0 0 0 (Except.error ()) "n1" = (none, []) := by
  have h := C5_spawn_policy [] "hub-1" 0 0 0 0 bobProfile "n1"
    (by norm_num) (by norm_num) (by norm_num) (by norm_num)
  have hs : (maybeSpawnNormie [] "hub-1" 0 0 0 0 (Except.ok bobProfile) "n1").1
      = some bobNpc := by
    simp only [maybeSpawnNormie, bobProfile, bobNpc, MAX_NORMIES_PER_ROOM,
      NORMIE_ATTACK_RATING]
    norm_num
    decide
  have h1 := h.1 bobNpc hs
  exact ⟨h1.1, h1.2.1, h1.2.2.1, h1.2.2.2.1, h1.2.2.2.2.1, h1.2.2.2.2.2.1,
    h1.2.2.2.2.2.2.1, h1.2.2.2.2.2.2.2.trans (by decide), h.2⟩

theorem find_set_replace {rooms : List (String × Room)} {id : String} {r : Room}
    (h : (rooms.find? (fun p => p.1 == id)).isSome) :
    (rooms.map (fun p => if p.1 == id then (id, r) else p)).find? (fun p => p.1 == id)
      = some (id, r) := by
  induction rooms with
  | nil => simp at h
  | cons p rest ih =>
    by_cases hp : (p.1 == id) = true
    · simp only [List.map_cons, if_pos hp]
      exact List.find?_cons_of_pos (p := fun (q : String × Room) => q.1 == id) _ (by simp)
    · rw [List.find?_cons_of_neg (p := fun (q : String × Room) => q.1 == id) _ hp] at h
      simp only [List.map_cons, if_neg hp]
      rw [List.find?_cons_of_neg (p := fun (q : String × Room) => q.1 == id) _ hp]
      exact ih h

theorem find_append_new {rooms : List (String × Room)} {id : String} {r : Room}
    (h : rooms.find? (fun p => p.1 == id) = none) :
    (rooms ++ [(id, r)]).find? (fun p => p.1 == id) = some (id, r) := by
  induction rooms with
  | nil =>
    simp only [List.nil_append]
    exact List.find?_cons_of_pos (p := fun (q : String × Room) => q.1 == id) _ (by simp)
  | cons p rest ih =>
    by_cases hp : (p.1 == id) = true
    · rw [List.find?_cons_of_pos (p := fun (q : String × Room) => q.1 == id) _ hp] at h
      cases h
    · rw [List.find?_cons_of_neg (p := fun (q : String × Room) => q.1 == id) _ hp] at h
      rw [List.cons_append, List.find?_cons_of_neg (p := fun (q : String × Room) => q.1 == id) _ hp]
      exact ih h

theorem roomsGet_roomsSet_self (rooms : List (String × Room)) (id : String) (r : Room) :
    roomsGet (roomsSet rooms id r) id = some r := by
  unfold roomsGet roomsSet
  split
  · rename_i hfind
    rw [find_set_replace hfind]
    rfl
  · rename_i hfind
    rw [find_append_new (Option.not_isSome_iff_eq_none.mp hfind)]
    rfl

theorem findExit_setExitTarget {exits : List ExitRef} {direction t : String} {e : ExitRef}
    (h : findExit exits direction = some e) :
    findExit (setExitTarget exits direction t) direction
      = some { e with targetRoomId := some t } := by
  induction exits with
  | nil => simp [findExit] at h
  | cons e0 rest ih =>
    by_cases hd : (e0.direction == direction) = true
    · unfold findExit at h
      rw [List.find?_cons_of_pos (p := fun (x : ExitRef) => x.direction == direction) _ hd] at h
      injection h with h
      subst h
      simp only [setExitTarget, if_pos hd, findExit]
      exact List.find?_cons_of_pos (p := fun (x : ExitRef) => x.direction == direction) _ hd
    · unfold findExit at h
      rw [List.find?_cons_of_neg (p := fun (x : ExitRef) => x.direction == direction) _ hd] at h
      simp only [setExitTarget, if_neg hd, findExit]
      rw [List.find?_cons_of_neg (p := fun (x : ExitRef) => x.direction == direction) _ hd]
      exact ih h

theorem findExit_append_new {exits : List ExitRef} {direction t : String}
    (h : findExit exits direction = none) :
    findExit (exits ++ [{ direction := direction, targetRoomId := some t }]) direction
      = some { direction := direction, targetRoomId := some t } := by
  induction exits with
  | nil =>
    simp only [findExit, List.nil_append]
    exact List.find?_cons_of_pos (p := fun (x : ExitRef) => x.direction == direction) _ (by simp)
  | cons e0 rest ih =>
    by_cases hd : (e0.direction == direction) = true
    · unfold findExit at h
      rw [List.find?_cons_of_pos (p := fun (x : ExitRef) => x.direction == direction) _ hd] at h
      cases h
    · unfold findExit at h
      rw [List.find?_cons_of_neg (p := fun (x : ExitRef) => x.direction == direction) _ hd] at h
      simp only [List.cons_append, findExit]
      rw [List.find?_cons_of_neg (p := fun (x : ExitRef) => x.direction == direction) _ hd]
      exact ih h

theorem materializeExit_generatorCalled (rooms : List (String × Room)) (roomId : String)
    (room : Room) (direction : String) (gen : Except Unit WorldBuilderResponse)
    (newRoomId : String) (exitExisted : Bool) :
    (materializeExit rooms roomId room direction gen newRoomId exitExisted).generatorCalled
      = true := by
  unfold materializeExit finishMove
  repeat' split
  all_goals try rfl
  all_goals dsimp only
  all_goals split <;> rfl

theorem resolved_of_materializeExit {rooms : List (String × Room)} {roomId : String}
    {room : Room} {direction : String} {gen : Except Unit WorldBuilderResponse}
    {newRoomId t : String} {exitExisted : Bool}
    (hex : (exitExisted = true ∧ ∃ e, findExit room.exits direction = some e)
      ∨ (exitExisted = false ∧ findExit room.exits direction = none))
    (h : (materializeExit rooms roomId room direction gen newRoomId exitExisted).result
      = MoveResult.moved t) :
    ExitResolved (materializeExit rooms roomId room direction gen newRoomId exitExisted).rooms
      roomId direction t := by
  cases gen with
  | error u => simp [materializeExit] at h
  | ok llmResult =>
    cases hfirst : llmResult.newRooms.head? with
    | none => simp [materializeExit, hfirst] at h
    | some first =>
      simp only [materializeExit, hfirst, finishMove] at h ⊢
      by_cases hempty : (newRoomId == "") = true
      · rw [if_pos hempty] at h
        simp at h
      · rw [if_neg hempty] at h ⊢
        cases hget : roomsGet (roomsSet (roomsSet rooms newRoomId
            { id := newRoomId, name := first.name, description := first.description,
              regionId := room.regionId, isHub := first.isHub.getD false,
              exits := first.exits })
            roomId (if exitExisted
              then { room with exits := setExitTarget room.exits direction newRoomId }
              else { room with exits := room.exits
                ++ [{ direction := direction, targetRoomId := some newRoomId }] }))
            newRoomId with
        | none => simp [hget] at h
        | some rt =>
          rw [hget] at h
          have h2 : MoveResult.moved newRoomId = MoveResult.moved t := h
          injection h2 with h2
          subst h2
          rcases hex with ⟨hb, e, he⟩ | ⟨hb, he⟩
          · subst hb
            simp only [if_pos rfl] at hget ⊢
            exact ⟨{ room with exits := setExitTarget room.exits direction newRoomId },
              { e with targetRoomId := some newRoomId },
              roomsGet_roomsSet_self _ _ _, findExit_setExitTarget he, rfl,
              by simpa using hempty, Option.isSome_iff_exists.mpr ⟨rt, hget⟩⟩
          · subst hb
            simp only [Bool.false_eq_true, if_false] at hget ⊢
            exact ⟨{ room with exits := room.exits
                ++ [{ direction := direction, targetRoomId := some newRoomId }] },
              { direction := direction, targetRoomId := some newRoomId },
              roomsGet_roomsSet_self _ _ _, findExit_append_new he, rfl,
              by simpa using hempty, Option.isSome_iff_exists.mpr ⟨rt, hget⟩⟩

theorem resolved_of_resolveMove {rooms : List (String × Room)}
    {roomId direction : String} {gen : Except Unit WorldBuilderResponse}
    {newRoomId t : String}
    (h : (resolveMove rooms roomId direction gen newRoomId).result = MoveResult.moved t) :
    ExitResolved (resolveMove rooms roomId direction gen newRoomId).rooms
      roomId direction t := by
  cases hroom : roomsGet rooms roomId with
  | none => simp [resolveMove, hroom] at h
  | some room =>
    cases hexit : findExit room.exits direction with
    | some e =>
      cases htar : e.targetRoomId with
      | some t0 =>
        simp only [resolveMove, hroom, hexit, htar, finishMove] at h ⊢
        by_cases hempty : (t0 == "") = true
        · rw [if_pos hempty] at h
          simp at h
        · rw [if_neg hempty] at h ⊢
          cases hget : roomsGet rooms t0 with
          | none => simp [hget] at h
          | some rt =>
            rw [hget] at h
            have h2 : MoveResult.moved t0 = MoveResult.moved t := h
            injection h2 with h2
            subst h2
            exact ⟨room, e, hroom, hexit, htar, by simpa using hempty,
              Option.isSome_iff_exists.mpr ⟨rt, hget⟩⟩
      | none =>
        simp only [resolveMove, hroom, hexit, htar] at h ⊢
        exact resolved_of_materializeExit (Or.inl ⟨rfl, e, hexit⟩) h
    | none =>
      simp only [resolveMove, hroom, hexit] at h ⊢
      exact resolved_of_materializeExit (Or.inr ⟨rfl, hexit⟩) h

theorem resolveMove_of_resolved {rooms : List (String × Room)}
    {roomId direction t : String} (gen : Except Unit WorldBuilderResponse)
    (newRoomId : String) (h : ExitResolved rooms roomId direction t) :
    resolveMove rooms roomId direction gen newRoomId
      = { rooms := rooms, result := MoveResult.moved t, generatorCalled := false } := by
  obtain ⟨room, e, h1, h2, h3, h4, h5⟩ := h
  obtain ⟨rt, hrt⟩ := Option.isSome_iff_exists.mp h5
  simp only [resolveMove, h1, h2, h3, finishMove, h4, Bool.false_eq_true, if_false, hrt]

/-- Claim C3 (confirmed): once a `move` through a direction has resolved
(in particular, once it has successfully materialized the exit), every
later `move` through the same direction of the same room yields the same
target room id, leaves the room table unchanged, and does not invoke the
content generator. -/
theorem C3_materialization_idempotent (rooms : List (String × Room))
    (roomId direction : String) (gen1 gen2 : Except Unit WorldBuilderResponse)
    (newId1 newId2 t : String)
    (h : (resolveMove rooms roomId direction gen1 newId1).result = MoveResult.moved t) :
    resolveMove (resolveMove rooms roomId direction gen1 newId1).rooms
        roomId direction gen2 newId2
      = { rooms := (resolveMove rooms roomId direction gen1 newId1).rooms,
          result := MoveResult.moved t, generatorCalled := false } :=
  resolveMove_of_resolved gen2 newId2 (resolved_of_resolveMove h)

/-- Witness for claim C3: moving north from the hub materializes room-77;
the second move north resolves to room-77 again with no generator call,
even though the second generator input would fail. -/
theorem C3_materialization_idempotent_witness :
    resolveMove (resolveMove wRooms "hub-1" "north" genOk "room-77").rooms
        "hub-1" "north" (Except.error ()) "room-78"
      = { rooms := (resolveMove wRooms "hub-1" "north" genOk "room-77").rooms,
          result := MoveResult.moved "room-77", generatorCalled := false } :=
  C3_materialization_idempotent wRooms "hub-1" "north" genOk (Except.error ())
    "room-77" "room-78" "room-77" (by decide)

/-- Claim C4 (confirmed): when the content generator fails during a `move`
through an unset or absent exit, the mover gets the narrative `error`
outcome, no room is inserted and the exit is left exactly as it was (the
room table is unchanged), and any later traversal of that direction calls
the generator again. -/
theorem C4_generator_failure (rooms : List (String × Room))
    (roomId direction newId : String) (room : Room)
    (hroom : roomsGet rooms roomId = some room)
    (hexit : findExit room.exits direction = none ∨
      ∃ e, findExit room.exits direction = some e ∧ e.targetRoomId = none) :
    resolveMove rooms roomId direction (Except.error ()) newId
      = { rooms := rooms,
          result := MoveResult.errorEvent "The path shimmers and collapses. Try again later.",
          generatorCalled := true } ∧
    ∀ gen2 newId2, (resolveMove rooms roomId direction gen2 newId2).generatorCalled = true := by
  constructor
  · rcases hexit with he | ⟨e, he, ht⟩
    · simp [resolveMove, hroom, he, materializeExit]
    · simp [resolveMove, hroom, he, ht, materializeExit]
  · intro gen2 newId2
    rcases hexit with he | ⟨e, he, ht⟩
    · simp only [resolveMove, hroom, he]
      exact materializeExit_generatorCalled _ _ _ _ _ _ _
    · simp only [resolveMove, hroom, he, ht]
      exact materializeExit_generatorCalled _ _ _ _ _ _ _

/-- Witness for claim C4: a failing generator on the hub's unexplored north
exit leaves the table unchanged with the narrative error, and a retry (here
with a succeeding generator) invokes the generator again. -/
theorem C4_generator_failure_witness :
    resolveMove wRooms "hub-1" "north" (Except.error ()) "room-77"
      = { rooms := wRooms,
          result := MoveResult.errorEvent "The path shimmers and collapses. Try again later.",
          generatorCalled := true } ∧
    (resolveMove wRooms "hub-1" "north" genOk "room-77").generatorCalled = true := by
  have h := C4_generator_failure wRooms "hub-1" "north" "room-77" hubM (by decide)
    (Or.inr ⟨{ direction := "north", targetRoomId := none }, by decide, rfl⟩)
  exact ⟨h.1, h.2 genOk "room-77"⟩

theorem parse_isSome_eq_amended (v : JValue) :
    (parseClientCommand v).isSome = amendedAcceptsCommand v := by
  cases v with
  | null => rfl
  | bool b => rfl
  | num n => rfl
  | str s => rfl
  | arr elems => rfl
  | obj fields =>
    simp only [parseClientCommand, parseFields, amendedAcceptsCommand]
    cases hT : getField fields "type" with
    | none => rfl
    | some tv =>
      cases tv with
      | null => rfl
      | bool b => rfl
      | num n => rfl
      | arr elems => rfl
      | obj fs => rfl
      | str t =>
        by_cases h1 : (t == "look") = true
        · simp [h1]
        simp only [if_neg h1]
        by_cases h2 : (t == "say") = true
        · simp only [if_pos h2]
          cases hm : getField fields "message" with
          | none => rfl
          | some jv => cases jv <;> rfl
        simp only [if_neg h2]
        by_cases h3 : (t == "move") = true
        · simp only [if_pos h3]
          cases hm : getField fields "direction" with
          | none => rfl
          | some jv => cases jv <;> rfl
        simp only [if_neg h3]
        by_cases h4 : (t == "setName") = true
        · simp only [if_pos h4]
          cases hm : getField fields "name" with
          | none => rfl
          | some jv => cases jv <;> rfl
        simp only [if_neg h4]
        by_cases h5 : (t == "attack") = true
        · simp only [if_pos h5]
          cases hm : getField fields "target" with
          | none => rfl
          | some jv => cases jv <;> rfl
        simp only [if_neg h5]
        by_cases h6 : (t == "status") = true
        · simp [h6]
        simp only [if_neg h6]
        by_cases h7 : (t == "topup") = true
        · simp [h7]
        simp only [if_neg h7]
        by_cases h8 : (t == "inventory") = true
        · simp [h8]
        simp only [if_neg h8]
        by_cases h9 : (t == "equip") = true
        · simp only [if_pos h9]
          cases hm : getField fields "item" with
          | none => rfl
          | some jv => cases jv <;> rfl
        simp only [if_neg h9]
        by_cases h10 : (t == "unequip") = true
        · simp only [if_pos h10]
          cases hs : getField fields "slot" with
          | none => rfl
          | some jv =>
            cases jv with
            | null => rfl
            | bool b => rfl
            | num n => rfl
            | arr elems => rfl
            | obj fs => rfl
            | str s =>
              by_cases hw : (s == "weapon") = true
              · simp [validSlotField, hw]
              · by_cases ha : (s == "armor") = true
                · simp [validSlotField, hw, ha]
                · simp [validSlotField, hw, ha]
        simp only [if_neg h10]
        by_cases h11 : (t == "talk") = true
        · simp only [if_pos h11]
          cases hm : getField fields "target" with
          | none => rfl
          | some jv => cases jv <;> rfl
        simp only [if_neg h11]
        rfl

/-- Claim C9 (amended): the inbound message handler rejects with the
generic malformed-command `error` event — dispatching nothing, hence
changing no state — exactly those parsed frames that fall outside the
closed command set `look`, `say{message}`, `move{direction}`,
`setName{name}`, `attack{target}`, `status`, `inventory` (an alias the
server maps to `status`), `topup`, `equip{item}`, `unequip{slot?}`,
`talk{target, action?, item?}`, or that carry a required field of the
wrong type; a frame that is not valid JSON is likewise rejected.  The
original claim's command set omitted `inventory`; see the
counterexample. -/
theorem C9_closed_command_set (v : JValue) :
    (handleRawMessage (some v) = MessageDisposition.malformedError
      ↔ amendedAcceptsCommand v = false) ∧
    (∀ cmd, handleRawMessage (some v) = MessageDisposition.dispatched cmd →
      parseClientCommand v = some cmd) ∧
    handleRawMessage none = MessageDisposition.malformedError := by
  refine ⟨?_, ?_, rfl⟩
  · have hiff := parse_isSome_eq_amended v
    cases hp : parseClientCommand v with
    | none =>
      rw [hp] at hiff
      simp only [Option.isSome_none] at hiff
      simp only [handleRawMessage, hp]
      simp [← hiff]
    | some cmd =>
      rw [hp] at hiff
      simp only [Option.isSome_some] at hiff
      simp only [handleRawMessage, hp]
      constructor
      · intro hcon
        cases hcon
      · intro hfalse
        rw [← hiff] at hfalse
        cases hfalse
  · intro cmd hd
    simp only [handleRawMessage] at hd
    cases hp : parseClientCommand v with
    | none =>
      rw [hp] at hd
      cases hd
    | some c =>
      rw [hp] at hd
      injection hd with hd
      rw [hd]

/-- Counterexample to claim C9 as stated: the frame `type: "inventory"` is
outside the claimed closed command set, yet the server does not reject it —
it parses it as the `status` command and dispatches it. -/
theorem C9_counterexample :
    claimedAcceptsCommand invMsg = false ∧
    handleRawMessage (some invMsg) = MessageDisposition.dispatched ClientCommand.status :=
  ⟨by decide, by decide⟩

/-- Witness for the amended claim C9: a `say` frame without its required
`message` string is outside the amended set and is rejected as malformed,
as is a frame that failed JSON parsing. -/
theorem C9_closed_command_set_witness :
    handleRawMessage (some (JValue.obj [("type", JValue.str "say")]))
      = MessageDisposition.malformedError ∧
    amendedAcceptsCommand (JValue.obj [("type", JValue.str "say")]) = false ∧
    handleRawMessage none = MessageDisposition.malformedError := by
  have h := C9_closed_command_set (JValue.obj [("type", JValue.str "say")])
  exact ⟨h.1.mpr (by decide), by decide, h.2.2⟩

end Caverna
